/-
  Verification of the macocr repository (src/main.rs) against its
  natural-language specification.

  The Rust source is shallowly embedded below.  External capabilities
  (filesystem reads, the Vision OCR engine, the image-dimension probe,
  multipart transport, file creation) are passed in as explicit function
  parameters or input fields, so every definition is executable and the
  data flow of the source is preserved.  f64 coordinate arithmetic is
  modelled over ℚ (the computations involved are exact: products, sums,
  differences, min/max).
-/
import Mathlib

namespace Macocr

/-! ## Data model (src/main.rs lines 65-108) -/

/-- One OCR box: recognized text plus a pixel-space axis-aligned rectangle
    (struct `OCRBoxItem`, lines 76-89). -/
structure OCRBoxItem where
  text : String
  x : ℚ
  y : ℚ
  w : ℚ
  h : ℚ
  deriving DecidableEq, Repr

/-- The assembled OCR result (struct `OCRResult`, lines 91-108). -/
structure OCRResult where
  text : String
  image_width : Nat
  image_height : Nat
  boxes : List OCRBoxItem
  deriving DecidableEq, Repr

/-- One engine observation: the optional best candidate transcript
    (`observation.topCandidates(1).firstObject()`) and the four normalized
    corner points (`topLeft`/`topRight`/`bottomRight`/`bottomLeft`),
    unit square, origin bottom-left. -/
structure Observation where
  topCandidate : Option String
  topLeft : ℚ × ℚ
  topRight : ℚ × ℚ
  bottomRight : ℚ × ℚ
  bottomLeft : ℚ × ℚ
  deriving DecidableEq, Repr

/-! ## CoordinateMapper (src/main.rs lines 255-272)

The source builds the literal four-element `corners` array and folds
`f64::min` from `f64::INFINITY` (resp. `f64::max` from `NEG_INFINITY`)
over it; on four finite values that fold is exactly the nested binary
min (resp. max) used below. -/

/-- Pixel-space corner transform and axis-aligned bounding box for one
    observation with transcript `t` (lines 255-272). -/
def mapObservation (width height : ℚ) (t : String) (o : Observation) : OCRBoxItem :=
  let c1 : ℚ × ℚ := (o.topLeft.1 * width, (1 - o.topLeft.2) * height)
  let c2 : ℚ × ℚ := (o.topRight.1 * width, (1 - o.topRight.2) * height)
  let c3 : ℚ × ℚ := (o.bottomRight.1 * width, (1 - o.bottomRight.2) * height)
  let c4 : ℚ × ℚ := (o.bottomLeft.1 * width, (1 - o.bottomLeft.2) * height)
  let min_x := min (min (min c1.1 c2.1) c3.1) c4.1
  let max_x := max (max (max c1.1 c2.1) c3.1) c4.1
  let min_y := min (min (min c1.2 c2.2) c3.2) c4.2
  let max_y := max (max (max c1.2 c2.2) c3.2) c4.2
  { text := t, x := min_x, y := min_y, w := max_x - min_x, h := max_y - min_y }

/-! ## ResultAssembler (src/main.rs lines 219-285) -/

/-- The observation loop of `get_ocr_result` (lines 247-275): builds the
    concatenated transcript and the box list in engine order, skipping
    observations without a top candidate. -/
def processObservations (width height : Nat) : List Observation → String × List OCRBoxItem
  | [] => ("", [])
  | o :: rest =>
    let tail := processObservations width height rest
    match o.topCandidate with
    | some s => (s ++ "\n" ++ tail.1, mapObservation width height s o :: tail.2)
    | none => (tail.1, tail.2)

/-- `get_ocr_result` (lines 219-285).  `read` models `fs::read(path)`;
    `probe` models `image::open(path)` returning dimensions (`None` leaves
    the `(0,0)` defaults of lines 223-224); `engine` models the Vision
    request: `request.results()` after `performRequests_error`, whose error
    is discarded by the source (`let _ =`, line 245). -/
def get_ocr_result (read : String → Except String (List Nat))
    (probe : String → Option (Nat × Nat))
    (engine : List Nat → Option (List Observation))
    (path : String) : Except String OCRResult :=
  match read path with
  | .error e => .error e
  | .ok bytes =>
    let wh := (probe path).getD (0, 0)
    let obs := (engine bytes).getD []
    let acc := processObservations wh.1 wh.2 obs
    .ok { text := acc.1, image_width := wh.1, image_height := wh.2, boxes := acc.2 }

/-- Spec-side concatenation: each line followed by a newline. -/
def concatLines : List String → String
  | [] => ""
  | s :: rest => s ++ "\n" ++ concatLines rest

/-! ## Helper lemmas about the observation loop -/

theorem processObservations_spec (width height : Nat) (l : List Observation) :
    (processObservations width height l).1
      = concatLines (l.filterMap (·.topCandidate))
    ∧ (processObservations width height l).2
      = l.filterMap (fun o => (o.topCandidate).map (fun s => mapObservation width height s o)) := by
  induction l with
  | nil => simp [processObservations, concatLines]
  | cons o rest ih =>
    cases h : o.topCandidate with
    | none => simpa [processObservations, h] using ih
    | some s => simp [processObservations, h, concatLines, ih.1, ih.2]

instance exceptDecEq {ε α : Type _} [DecidableEq ε] [DecidableEq α] :
    DecidableEq (Except ε α) := fun
  | .error e, .error f => decidable_of_iff (e = f) (by simp)
  | .error _, .ok _ => isFalse (by simp)
  | .ok _, .error _ => isFalse (by simp)
  | .ok a, .ok b => decidable_of_iff (a = b) (by simp)

/-- Membership of a normalized corner point in the closed unit square. -/
def inUnitSquare (p : ℚ × ℚ) : Prop :=
  0 ≤ p.1 ∧ p.1 ≤ 1 ∧ 0 ≤ p.2 ∧ p.2 ≤ 1

instance (p : ℚ × ℚ) : Decidable (inUnitSquare p) := by
  unfold inUnitSquare; infer_instance

theorem min4_nonneg {a b c d : ℚ} (ha : 0 ≤ a) (hb : 0 ≤ b) (hc : 0 ≤ c) (hd : 0 ≤ d) :
    0 ≤ min (min (min a b) c) d :=
  le_min (le_min (le_min ha hb) hc) hd

theorem max4_le {a b c d M : ℚ} (ha : a ≤ M) (hb : b ≤ M) (hc : c ≤ M) (hd : d ≤ M) :
    max (max (max a b) c) d ≤ M :=
  max_le (max_le (max_le ha hb) hc) hd

theorem min4_le_max4 {a b c d : ℚ} :
    min (min (min a b) c) d ≤ max (max (max a b) c) d :=
  ((min_le_left _ d).trans ((min_le_left _ c).trans (min_le_left a b))).trans
    ((le_max_left a b).trans ((le_max_left _ c).trans (le_max_left _ d)))

/-- The synthetic observation of the spec's round-trip property: corners
    (0,0), (1,0), (1,1), (0,1) spanning the whole unit square. -/
def synthObs : Observation :=
  { topCandidate := some "A"
    topLeft := (0, 1), topRight := (1, 1), bottomRight := (1, 0), bottomLeft := (0, 0) }

/-- C1: the bounding box is obtained by mapping each normalized corner
    (nx, ny) to the pixel point (nx * width, (1 - ny) * height) and taking
    x = min of the corner xs, y = min of the corner ys, w = max x - min x,
    h = max y - min y; and the synthetic observation with corners
    (0,0),(1,0),(1,1),(0,1) at width 100, height 200 yields the box
    x=0, y=0, w=100, h=200. -/
theorem C1_coordinate_mapping :
    (∀ (width height : ℚ) (t : String) (o : Observation),
      mapObservation width height t o =
        { text := t
          x := min (min (min (o.topLeft.1 * width) (o.topRight.1 * width))
                  (o.bottomRight.1 * width)) (o.bottomLeft.1 * width)
          y := min (min (min ((1 - o.topLeft.2) * height) ((1 - o.topRight.2) * height))
                  ((1 - o.bottomRight.2) * height)) ((1 - o.bottomLeft.2) * height)
          w := max (max (max (o.topLeft.1 * width) (o.topRight.1 * width))
                  (o.bottomRight.1 * width)) (o.bottomLeft.1 * width)
               - min (min (min (o.topLeft.1 * width) (o.topRight.1 * width))
                  (o.bottomRight.1 * width)) (o.bottomLeft.1 * width)
          h := max (max (max ((1 - o.topLeft.2) * height) ((1 - o.topRight.2) * height))
                  ((1 - o.bottomRight.2) * height)) ((1 - o.bottomLeft.2) * height)
               - min (min (min ((1 - o.topLeft.2) * height) ((1 - o.topRight.2) * height))
                  ((1 - o.bottomRight.2) * height)) ((1 - o.bottomLeft.2) * height) })
    ∧ get_ocr_result (fun _ => .ok [0]) (fun _ => some (100, 200))
        (fun _ => some [synthObs]) "synthetic"
        = .ok { text := "A\n", image_width := 100, image_height := 200,
                boxes := [{ text := "A", x := 0, y := 0, w := 100, h := 200 }] } := by
  refine ⟨fun width height t o => rfl, ?_⟩
  norm_num [get_ocr_result, processObservations, mapObservation, synthObs, min_def, max_def]
  decide

/-- C2: when all four normalized corners lie in the unit square and the
    image dimensions are positive, the resulting box satisfies 0 ≤ x,
    0 ≤ y, x + w ≤ width, y + h ≤ height, w ≥ 0, h ≥ 0, and (x, y) are the
    minimum corner coordinates after the transform. -/
theorem C2_box_bounds (width height : Nat) (hw : 0 < width) (hh : 0 < height)
    (t : String) (o : Observation)
    (h1 : inUnitSquare o.topLeft) (h2 : inUnitSquare o.topRight)
    (h3 : inUnitSquare o.bottomRight) (h4 : inUnitSquare o.bottomLeft) :
    0 ≤ (mapObservation width height t o).x
    ∧ 0 ≤ (mapObservation width height t o).y
    ∧ (mapObservation width height t o).x + (mapObservation width height t o).w ≤ (width : ℚ)
    ∧ (mapObservation width height t o).y + (mapObservation width height t o).h ≤ (height : ℚ)
    ∧ 0 ≤ (mapObservation width height t o).w
    ∧ 0 ≤ (mapObservation width height t o).h
    ∧ (mapObservation width height t o).x
        = min (min (min (o.topLeft.1 * width) (o.topRight.1 * width))
            (o.bottomRight.1 * width)) (o.bottomLeft.1 * width)
    ∧ (mapObservation width height t o).y
        = min (min (min ((1 - o.topLeft.2) * height) ((1 - o.topRight.2) * height))
            ((1 - o.bottomRight.2) * height)) ((1 - o.bottomLeft.2) * height) := by
  obtain ⟨a1, a2, a3, a4⟩ := h1
  obtain ⟨b1, b2, b3, b4⟩ := h2
  obtain ⟨c1, c2, c3, c4⟩ := h3
  obtain ⟨d1, d2, d3, d4⟩ := h4
  have hwQ : (0 : ℚ) ≤ (width : ℚ) := by positivity
  have hhQ : (0 : ℚ) ≤ (height : ℚ) := by positivity
  have px1 : 0 ≤ o.topLeft.1 * width := mul_nonneg a1 hwQ
  have px2 : 0 ≤ o.topRight.1 * width := mul_nonneg b1 hwQ
  have px3 : 0 ≤ o.bottomRight.1 * width := mul_nonneg c1 hwQ
  have px4 : 0 ≤ o.bottomLeft.1 * width := mul_nonneg d1 hwQ
  have qx1 : o.topLeft.1 * width ≤ width := mul_le_of_le_one_left hwQ a2
  have qx2 : o.topRight.1 * width ≤ width := mul_le_of_le_one_left hwQ b2
  have qx3 : o.bottomRight.1 * width ≤ width := mul_le_of_le_one_left hwQ c2
  have qx4 : o.bottomLeft.1 * width ≤ width := mul_le_of_le_one_left hwQ d2
  have py1 : 0 ≤ (1 - o.topLeft.2) * height := mul_nonneg (by linarith) hhQ
  have py2 : 0 ≤ (1 - o.topRight.2) * height := mul_nonneg (by linarith) hhQ
  have py3 : 0 ≤ (1 - o.bottomRight.2) * height := mul_nonneg (by linarith) hhQ
  have py4 : 0 ≤ (1 - o.bottomLeft.2) * height := mul_nonneg (by linarith) hhQ
  have qy1 : (1 - o.topLeft.2) * height ≤ height := mul_le_of_le_one_left hhQ (by linarith)
  have qy2 : (1 - o.topRight.2) * height ≤ height := mul_le_of_le_one_left hhQ (by linarith)
  have qy3 : (1 - o.bottomRight.2) * height ≤ height := mul_le_of_le_one_left hhQ (by linarith)
  have qy4 : (1 - o.bottomLeft.2) * height ≤ height := mul_le_of_le_one_left hhQ (by linarith)
  simp only [mapObservation]
  refine ⟨min4_nonneg px1 px2 px3 px4, min4_nonneg py1 py2 py3 py4, ?_, ?_, ?_, ?_,
    by trivial, by trivial⟩
  · have := max4_le qx1 qx2 qx3 qx4
    linarith
  · have := max4_le qy1 qy2 qy3 qy4
    linarith
  · have := min4_le_max4 (a := o.topLeft.1 * width) (b := o.topRight.1 * width)
      (c := o.bottomRight.1 * width) (d := o.bottomLeft.1 * width)
    linarith
  · have := min4_le_max4 (a := (1 - o.topLeft.2) * height) (b := (1 - o.topRight.2) * height)
      (c := (1 - o.bottomRight.2) * height) (d := (1 - o.bottomLeft.2) * height)
    linarith

/-- Witness for C2 at the synthetic observation with width 100, height 200. -/
theorem C2_box_bounds_witness :
    0 ≤ (mapObservation ((100 : Nat) : ℚ) ((200 : Nat) : ℚ) "A" synthObs).x
    ∧ 0 ≤ (mapObservation ((100 : Nat) : ℚ) ((200 : Nat) : ℚ) "A" synthObs).w :=
  ⟨(C2_box_bounds 100 200 (by decide) (by decide) "A" synthObs
      (by decide) (by decide) (by decide) (by decide)).1,
   (C2_box_bounds 100 200 (by decide) (by decide) "A" synthObs
      (by decide) (by decide) (by decide) (by decide)).2.2.2.2.1⟩

theorem data_append (s t : String) : (s ++ t).data = s.data ++ t.data := by
  cases s; cases t; rfl

theorem mapObservation_text (width height : ℚ) (t : String) (o : Observation) :
    (mapObservation width height t o).text = t := rfl

theorem boxes_text_map (width height : Nat) (l : List Observation) :
    (l.filterMap (fun o => (o.topCandidate).map
        (fun s => mapObservation width height s o))).map (·.text)
      = l.filterMap (·.topCandidate) := by
  induction l with
  | nil => simp
  | cons o rest ih =>
    cases h : o.topCandidate with
    | none => simp [h, ih]
    | some s => simp [h, ih, mapObservation_text]

theorem concatLines_count (L : List String) (h : ∀ s ∈ L, '\n' ∉ s.data) :
    (concatLines L).data.count '\n' = L.length := by
  induction L with
  | nil => rfl
  | cons s rest ih =>
    have hs : '\n' ∉ s.data := h s (by simp)
    have hrest : ∀ x ∈ rest, '\n' ∉ x.data := fun x hx => h x (by simp [hx])
    simp only [concatLines, data_append, List.count_append, List.length_cons]
    rw [List.count_eq_zero.mpr hs, ih hrest]
    have h2 : List.count '\n' ("\n" : String).data = 1 := rfl
    rw [h2]
    omega

/-- C4: the full-text field is the concatenation, in engine observation
    order, of each observation's best-candidate line followed by a newline,
    and the boxes follow the same engine order (one mapped box per
    observation with a top candidate, not re-sorted). -/
theorem C4_text_and_box_order (read : String → Except String (List Nat))
    (probe : String → Option (Nat × Nat)) (engine : List Nat → Option (List Observation))
    (path : String) (bytes : List Nat) (r : OCRResult)
    (hread : read path = .ok bytes)
    (hr : get_ocr_result read probe engine path = .ok r) :
    r.text = concatLines (((engine bytes).getD []).filterMap (·.topCandidate))
    ∧ r.boxes = ((engine bytes).getD []).filterMap
        (fun o => (o.topCandidate).map (fun s =>
          mapObservation ((probe path).getD (0, 0)).1 ((probe path).getD (0, 0)).2 s o)) := by
  simp only [get_ocr_result, hread, Except.ok.injEq] at hr
  subst hr
  exact ⟨(processObservations_spec _ _ _).1, (processObservations_spec _ _ _).2⟩

/-- Witness for C4 with a stub engine yielding no observations. -/
theorem C4_text_and_box_order_witness : ("" : String) = concatLines [] :=
  (C4_text_and_box_order (fun _ => .ok []) (fun _ => none) (fun _ => none) "p" [] _
    rfl rfl).1

/-- C5: `get_ocr_result` fails exactly when the file read fails, propagating
    the read's error; on a successful read it returns `Ok`, and with zero
    engine observations the result has empty text and an empty box list. -/
theorem C5_read_gate (read : String → Except String (List Nat))
    (probe : String → Option (Nat × Nat)) (engine : List Nat → Option (List Observation))
    (path : String) :
    ((get_ocr_result read probe engine path).isOk = (read path).isOk)
    ∧ (∀ e, read path = .error e → get_ocr_result read probe engine path = .error e)
    ∧ (∀ bytes, read path = .ok bytes → ((engine bytes).getD []) = [] →
        get_ocr_result read probe engine path
          = .ok { text := "", image_width := ((probe path).getD (0, 0)).1,
                  image_height := ((probe path).getD (0, 0)).2, boxes := [] }) := by
  refine ⟨?_, ?_, ?_⟩
  · cases h : read path <;> simp [get_ocr_result, h, Except.isOk, Except.toBool]
  · intro e he
    simp [get_ocr_result, he]
  · intro bytes hb hobs
    simp [get_ocr_result, hb, hobs, processObservations]

/-- Witness for C5: a successful empty read with a no-result engine yields the
    empty OCR result. -/
theorem C5_read_gate_witness :
    get_ocr_result (fun _ => Except.ok ([] : List Nat)) (fun _ => none) (fun _ => none) "p"
      = .ok { text := "", image_width := 0, image_height := 0, boxes := [] } :=
  (C5_read_gate (fun _ => Except.ok ([] : List Nat)) (fun _ => none) (fun _ => none) "p").2.2
    [] rfl rfl

/-- C9: with the read, probe and engine modeled as deterministic functions,
    two runs of the pipeline on identical file bytes and identical probe
    results yield identical `OCRResult` values. -/
theorem C9_deterministic (read : String → Except String (List Nat))
    (probe : String → Option (Nat × Nat)) (engine : List Nat → Option (List Observation))
    (p1 p2 : String) (hread : read p1 = read p2) (hprobe : probe p1 = probe p2) :
    get_ocr_result read probe engine p1 = get_ocr_result read probe engine p2 := by
  unfold get_ocr_result
  rw [hread, hprobe]

/-- Witness for C9 on two concrete paths with equal read/probe results. -/
theorem C9_deterministic_witness :
    get_ocr_result (fun _ => Except.ok ([] : List Nat)) (fun _ => none) (fun _ => none) "a"
      = get_ocr_result (fun _ => Except.ok ([] : List Nat)) (fun _ => none) (fun _ => none) "b" :=
  C9_deterministic _ _ _ "a" "b" rfl rfl

/-- C10: a transcript line is appended exactly when a box is appended for the
    same observation: the text field is the concatenation of the boxes' texts
    each followed by a newline, and (when no line itself contains a newline)
    the number of newline-terminated lines equals the number of boxes. -/
theorem C10_line_box_pairing (read : String → Except String (List Nat))
    (probe : String → Option (Nat × Nat)) (engine : List Nat → Option (List Observation))
    (path : String) (r : OCRResult)
    (hr : get_ocr_result read probe engine path = .ok r) :
    r.text = concatLines (r.boxes.map (·.text))
    ∧ ((∀ b ∈ r.boxes, '\n' ∉ b.text.data) →
        r.text.data.count '\n' = r.boxes.length) := by
  cases hread : read path with
  | error e => simp [get_ocr_result, hread] at hr
  | ok bytes =>
    simp only [get_ocr_result, hread, Except.ok.injEq] at hr
    subst hr
    constructor
    · rw [(processObservations_spec _ _ _).1]
      show _ = concatLines ((processObservations _ _ _).2.map _)
      rw [(processObservations_spec _ _ _).2, boxes_text_map]
    · intro hnl
      show (processObservations _ _ _).1.data.count '\n' = (processObservations _ _ _).2.length
      rw [(processObservations_spec _ _ _).1]
      rw [concatLines_count]
      · rw [(processObservations_spec _ _ _).2]
        rw [← boxes_text_map ((probe path).getD (0, 0)).1 ((probe path).getD (0, 0)).2]
        simp
      · intro s hs
        rw [← boxes_text_map ((probe path).getD (0, 0)).1 ((probe path).getD (0, 0)).2] at hs
        rw [← (processObservations_spec _ _ _).2] at hs
        obtain ⟨b, hb, rfl⟩ := List.mem_map.mp hs
        exact hnl b hb

/-- Witness for C10 with a stub engine yielding no observations. -/
theorem C10_line_box_pairing_witness :
    (String.data "").count '\n' = ([] : List OCRBoxItem).length :=
  (C10_line_box_pairing (fun _ => Except.ok ([] : List Nat)) (fun _ => none) (fun _ => none)
    "p" _ rfl).2 (by simp [processObservations])

/-! ## UploadPipeline (src/main.rs lines 321-481)

The handler's effects are modelled by explicit inputs: `first_field` is the
outcome of `multipart.next_field().await`, a field's `content` is the outcome
of `field.bytes().await`, `create_ok`/`write_ok` are the outcomes of
`File::create`/`write_all` on the randomized save path, and `path_ok` is
whether `save_path.to_str()` yields `Some`.  The UUID filename generation
(lines 334-348) only shapes that opaque save path and is absorbed by those
three flags.  The classifier and OCR are functions of the written bytes
(the saved file holds exactly the uploaded payload).  Whitespace inside the
literal HTML pages is normalized; their text content is kept. -/

/-- JSON body of the upload endpoint (struct `UploadResponse`, lines 66-74). -/
structure UploadResponse where
  success : Bool
  message : String
  ocr_result : String
  image_width : Nat
  image_height : Nat
  ocr_boxes : List OCRBoxItem
  deriving DecidableEq, Repr

/-- A handler response: structured JSON or an HTML page. -/
inductive UpResponse where
  | json (r : UploadResponse)
  | html (page : String)
  deriving DecidableEq, Repr

/-- A panic aborting the handler (an `unwrap()` on an `Err` value). -/
inductive PanicKind where
  | unwrapPanic
  deriving DecidableEq, Repr

/-- The first multipart field: its `file_name()` and the outcome of
    `field.bytes().await`. -/
structure MultipartField where
  file_name : Option String
  content : Except String (List Nat)

/-- Request-scoped inputs of `upload_file`. -/
structure UploadInput where
  accept : Option (Option String)
  first_field : Except String (Option MultipartField)
  create_ok : Bool
  write_ok : Bool
  path_ok : Bool

/-- Content negotiation (lines 324-327): the request is an API request when
    the `accept` header is present, convertible to a string, and contains
    `application/json`. -/
def isApiRequest (accept : Option (Option String)) : Bool :=
  match accept with
  | some (some s) => decide ("application/json".data <:+: s.data)
  | _ => false

/-- HTML escaping of the transcript (line 402). -/
def escapeHtml (s : String) : String :=
  ((s.replace "&" "&amp;").replace "<" "&lt;").replace ">" "&gt;"

/-- The error pages of lines 417-427, 443-453 and 468-478 (whitespace
    normalized). -/
def errorPage (h1 : String) : String :=
  "<!doctype html><head><meta charset=\"utf-8\"><title>Error</title></head><html><body><h1>"
    ++ h1 ++ "</h1></body></html>"

/-- The OCR result page of lines 387-403 (whitespace normalized). -/
def resultPage (title text : String) : String :=
  "<!doctype html><html><head><meta charset=\"utf-8\"><title>OCR Result</title></head><body><h1>"
    ++ title ++ "</h1><pre>" ++ escapeHtml text ++ "</pre></body></html>"

/-- The default (non-image) outcome of lines 355-361. -/
def notImageResponse : UploadResponse :=
  { success := false, message := "The file type is not an image",
    ocr_result := "", image_width := 0, image_height := 0, ocr_boxes := [] }

/-- "No file received" JSON body (lines 459-466). -/
def noFileJson : UploadResponse :=
  { success := false, message := "No file received",
    ocr_result := "", image_width := 0, image_height := 0, ocr_boxes := [] }

/-- "Failed to write file" JSON body (lines 408-415). -/
def writeFailJson : UploadResponse :=
  { success := false, message := "Failed to write file",
    ocr_result := "", image_width := 0, image_height := 0, ocr_boxes := [] }

/-- "Unable to create file" JSON body (lines 434-441). -/
def createFailJson : UploadResponse :=
  { success := false, message := "Unable to create file",
    ocr_result := "", image_width := 0, image_height := 0, ocr_boxes := [] }

/-- `upload_file` (lines 322-481).  `classify` models `is_image` on the saved
    bytes and `ocr` models `get_ocr_result` on the saved path.  The two
    `.unwrap()` calls of lines 330 and 332 panic when their argument is an
    `Err`, which is modelled by `Except.error .unwrapPanic`. -/
def upload_file (classify : List Nat → Bool) (ocr : List Nat → Except String OCRResult)
    (inp : UploadInput) : Except PanicKind UpResponse :=
  let is_api_request := isApiRequest inp.accept
  match inp.first_field with
  | .error _ => .error .unwrapPanic
  | .ok none =>
    .ok (if is_api_request then .json noFileJson
         else .html (errorPage "❌ No file received"))
  | .ok (some field) =>
    match field.content with
    | .error _ => .error .unwrapPanic
    | .ok data =>
      if inp.create_ok then
        if inp.write_ok then
          let payload : UploadResponse :=
            if inp.path_ok && classify data then
              match ocr data with
              | .ok res =>
                { success := true, message := "File uploaded successfully",
                  ocr_result := res.text, image_width := res.image_width,
                  image_height := res.image_height, ocr_boxes := res.boxes }
              | .error _ => notImageResponse
            else notImageResponse
          let title := if payload.success then "OCR Result:"
                       else "❌ The file type is not an image"
          .ok (if is_api_request then .json payload
               else .html (resultPage title payload.ocr_result))
        else
          .ok (if is_api_request then .json writeFailJson
               else .html (errorPage "❌ Failed to write file."))
      else
        .ok (if is_api_request then .json createFailJson
             else .html (errorPage "❌ Unable to create file."))

/-- Whether the multipart transport part of the request succeeds: the first
    field is obtained without error and, when present, its bytes are read
    without error. -/
def fieldReadOk (inp : UploadInput) : Bool :=
  match inp.first_field with
  | .error _ => false
  | .ok none => true
  | .ok (some field) => field.content.isOk

/-! ## ImageClassifier (modelled): `infer::is_image`

`Modelled from the spec:` the `infer` crate used by `is_image`
(src/main.rs lines 211-217) is external to this repository; per the spec it
matches known leading image magic numbers and returns `false` on
unrecognized content.  A representative set of magic prefixes is used; all
are nonempty, so empty data never classifies as an image. -/
def imageMagics : List (List Nat) :=
  [[0x89, 0x50, 0x4E, 0x47, 0x0D, 0x0A, 0x1A, 0x0A],  -- PNG
   [0xFF, 0xD8, 0xFF],                                -- JPEG
   [0x47, 0x49, 0x46, 0x38],                          -- GIF
   [0x42, 0x4D],                                      -- BMP
   [0x49, 0x49, 0x2A, 0x00],                          -- TIFF (LE)
   [0x4D, 0x4D, 0x00, 0x2A]]                          -- TIFF (BE)

/-- `Modelled from the spec:` content sniffing by magic-number prefix. -/
def sniffIsImage (data : List Nat) : Bool :=
  imageMagics.any (fun m => m.isPrefixOf data)

/-- A stub OCR function for concrete instantiations. -/
def stubOcr : List Nat → Except String OCRResult :=
  fun _ => .ok { text := "", image_width := 0, image_height := 0, boxes := [] }

/-- Counterexample to C3: a request whose multipart body is malformed makes
    `multipart.next_field().await.unwrap()` (line 330) panic instead of
    producing a structured response. -/
theorem C3_counterexample :
    upload_file sniffIsImage stubOcr
      { accept := some (some "application/json"),
        first_field := .error "malformed multipart boundary",
        create_ok := true, write_ok := true, path_ok := true }
      = .error .unwrapPanic := rfl

/-- C3 (amended): whenever the multipart field extraction and the field's
    byte read succeed, every request-scoped error (missing field, non-image
    content, file create/write failure) produces a structured JSON or HTML
    response; the handler panics exactly when the multipart transport fails. -/
theorem C3_structured_responses (classify : List Nat → Bool)
    (ocr : List Nat → Except String OCRResult) (inp : UploadInput) :
    (upload_file classify ocr inp).isOk = fieldReadOk inp := by
  unfold upload_file fieldReadOk
  rcases inp with ⟨accept, ff, c, w, p⟩
  rcases ff with e | f
  · rfl
  · rcases f with _ | fld
    · simp [Except.isOk, Except.toBool]
    · rcases hc : fld.content with e | data
      · simp [hc, Except.isOk, Except.toBool]
      · simp only [hc]
        rcases c <;> rcases w <;>
          simp [Except.isOk, Except.toBool]

/-- Counterexample to C6: a present but zero-length multipart field is not
    answered with "no file received": it is persisted, fails image sniffing,
    and yields the success=false "file type is not an image" response. -/
theorem C6_counterexample :
    upload_file sniffIsImage stubOcr
      { accept := some (some "application/json"),
        first_field := .ok (some { file_name := some "a.png", content := .ok [] }),
        create_ok := true, write_ok := true, path_ok := true }
      = .ok (.json notImageResponse)
    ∧ notImageResponse ≠ noFileJson := by
  constructor
  · rfl
  · decide

/-- C6 (amended): only a missing first multipart field produces the terminal
    "no file received" response (JSON or HTML according to content
    negotiation); a present but empty field instead flows through the
    persist/classify pipeline. -/
theorem C6_no_file_only_when_missing (classify : List Nat → Bool)
    (ocr : List Nat → Except String OCRResult)
    (accept : Option (Option String)) (c w p : Bool) :
    upload_file classify ocr
      { accept := accept, first_field := .ok none,
        create_ok := c, write_ok := w, path_ok := p }
      = .ok (if isApiRequest accept then .json noFileJson
             else .html (errorPage "❌ No file received")) := rfl

/-! ## CLIDriver, explicit export mode (src/main.rs lines 122-135, 287-290) -/

/-- An observable effect of the export loop: a file written by
    `export_text_file` (which passes its path straight to `fs::write`), or a
    line printed by `println!`. -/
inductive CliEffect where
  | wrote (path contents : String)
  | printed (line : String)
  deriving DecidableEq, Repr

/-- The last `/`-separated component of a path (models `Path::file_name`
    for paths without trailing separators). -/
def lastComponent (l : List Char) : List Char :=
  l.foldl (fun acc c => if c = '/' then [] else acc ++ [c]) []

/-- The stem of a file name: the portion before the final `.`, except that a
    leading-dot name with no other dot is its own stem (models
    `Path::file_stem`). -/
def stemChars (name : List Char) : List Char :=
  match name.reverse.dropWhile (fun c => !(c == '.')) with
  | [] => name
  | _ :: before => if before.isEmpty then name else before.reverse

/-- `Path::new(file).file_stem().and_then(to_str)` (line 126). -/
def file_stem (path : String) : Option String :=
  let name := lastComponent path.data
  if name.isEmpty then none else some (String.mk (stemChars name))

/-- One iteration of the `--ocr` export loop (lines 123-134).  `is_img`
    models `is_image(file)`, `get_ocr` models `get_ocr_result(file)`, and
    `exportOk` models the success of `export_text_file(text, path)`. -/
def ocr_export_step (is_img : String → Bool)
    (get_ocr : String → Except String OCRResult)
    (exportOk : String → String → Bool) (file : String) : List CliEffect :=
  if is_img file then
    match get_ocr file with
    | .ok ocr_result =>
      match file_stem file with
      | some stem =>
        let text_file := stem ++ ".txt"
        if exportOk ocr_result.text text_file then
          [.wrote text_file ocr_result.text,
           .printed (file ++ " --> " ++ text_file)]
        else []
      | none => []
    | .error _ => []
  else []

/-- Counterexample to C7: for the input `/a/b/cat.png` the export path handed
    to `fs::write` is `cat.txt` — the input's directory is dropped, so the
    file is created relative to the process working directory, not beside
    the input at `/a/b/cat.txt`. -/
theorem C7_counterexample :
    ocr_export_step (fun _ => true)
      (fun _ => .ok { text := "T\n", image_width := 4, image_height := 2, boxes := [] })
      (fun _ _ => true) "/a/b/cat.png"
      = [.wrote "cat.txt" "T\n", .printed "/a/b/cat.png --> cat.txt"]
    ∧ ("cat.txt" : String) ≠ "/a/b/cat.txt" := by
  constructor
  · rfl
  · decide

/-- C7 (amended): in explicit export mode, for every input that classifies as
    an image and whose OCR succeeds, the transcript is written to a file
    named `<stem>.txt` — resolved relative to the current working directory,
    the input's directory being dropped — and a `source --> destination`
    line is printed. -/
theorem C7_export_naming (is_img : String → Bool)
    (get_ocr : String → Except String OCRResult) (exportOk : String → String → Bool)
    (file stem : String) (r : OCRResult)
    (himg : is_img file = true) (hocr : get_ocr file = .ok r)
    (hstem : file_stem file = some stem) (hexp : exportOk r.text (stem ++ ".txt") = true) :
    ocr_export_step is_img get_ocr exportOk file
      = [.wrote (stem ++ ".txt") r.text,
         .printed (file ++ " --> " ++ (stem ++ ".txt"))] := by
  unfold ocr_export_step
  rw [himg, hocr, hstem]
  simp [hexp]

/-- Witness for C7 at `/a/b/cat.png`. -/
theorem C7_export_naming_witness :
    ocr_export_step (fun _ => true)
      (fun _ => .ok { text := "T\n", image_width := 4, image_height := 2, boxes := [] })
      (fun _ _ => true) "/a/b/cat.png"
      = [.wrote ("cat" ++ ".txt") "T\n",
         .printed ("/a/b/cat.png" ++ " --> " ++ ("cat" ++ ".txt"))] :=
  C7_export_naming (fun _ => true)
    (fun _ => .ok { text := "T\n", image_width := 4, image_height := 2, boxes := [] })
    (fun _ _ => true) "/a/b/cat.png" "cat" _ rfl rfl (by decide) rfl

/-! ## AuthGate (src/main.rs lines 489-524)

`basic_auth_middleware_with_params` header processing.  Rust `String`s are
modelled by their UTF-8 byte lists (`List Nat`, values < 256); equality of
Rust strings is equality of those byte lists, `split_once(':')` splits at
the first 0x3A byte (in UTF-8 a 0x3A byte only ever encodes `:`), and
`String::from_utf8` is the UTF-8 validity check `utf8Valid`.  The header
value is `Option (Option (List Char))`: missing header, present but not
convertible by `to_str()`, or the header string's characters.

The `base64` crate's `general_purpose::STANDARD` decoder requires canonical
padding and zero trailing bits, so it accepts exactly the strings the
encoder produces; `decodeChunks` implements that strict decoder and
`encodeChunks` the encoder. -/

/-- The standard base64 alphabet. -/
def b64Table : List Char :=
  "ABCDEFGHIJKLMNOPQRSTUVWXYZabcdefghijklmnopqrstuvwxyz0123456789+/".data

/-- Sextet value to alphabet character. -/
def b64Char (n : Nat) : Char := b64Table.getD n 'A'

/-- Alphabet character to sextet value (`none` off-alphabet, also for `=`). -/
def b64Index (c : Char) : Option Nat :=
  (List.range 64).find? (fun n => b64Char n == c)

/-- Base64 encoding of a byte list (standard alphabet, with padding). -/
def encodeChunks : List Nat → List Char
  | [] => []
  | [a] => [b64Char (a / 4), b64Char (a % 4 * 16), '=', '=']
  | [a, b] => [b64Char (a / 4), b64Char (a % 4 * 16 + b / 16), b64Char (b % 16 * 4), '=']
  | a :: b :: c :: rest =>
    b64Char (a / 4) :: b64Char (a % 4 * 16 + b / 16) :: b64Char (b % 16 * 4 + c / 64)
      :: b64Char (c % 64) :: encodeChunks rest

/-- Strict base64 decoding: length a multiple of 4, padding only at the very
    end, canonical (zero) trailing bits — the acceptance set of the crate's
    `general_purpose::STANDARD` decoder. -/
def decodeChunks : List Char → Option (List Nat)
  | [] => some []
  | c1 :: c2 :: c3 :: c4 :: rest =>
    match b64Index c1, b64Index c2 with
    | some v1, some v2 =>
      if rest.isEmpty then
        if c3 = '=' then
          if c4 = '=' then
            if v2 % 16 = 0 then some [v1 * 4 + v2 / 16] else none
          else none
        else if c4 = '=' then
          match b64Index c3 with
          | some v3 =>
            if v3 % 4 = 0 then some [v1 * 4 + v2 / 16, v2 % 16 * 16 + v3 / 4] else none
          | none => none
        else
          match b64Index c3, b64Index c4 with
          | some v3, some v4 =>
            some [v1 * 4 + v2 / 16, v2 % 16 * 16 + v3 / 4, v3 % 4 * 64 + v4]
          | _, _ => none
      else
        match b64Index c3, b64Index c4 with
        | some v3, some v4 =>
          match decodeChunks rest with
          | some bs => some ((v1 * 4 + v2 / 16) :: (v2 % 16 * 16 + v3 / 4) :: (v3 % 4 * 64 + v4) :: bs)
          | none => none
        | _, _ => none
    | _, _ => none
  | _ => none

/-- A UTF-8 continuation byte. -/
def isUtf8Cont (b : Nat) : Bool := 0x80 ≤ b && b ≤ 0xBF

/-- UTF-8 validity of a byte list, as checked by `String::from_utf8`
    (shortest-form encodings only, surrogates and values above U+10FFFF
    rejected). -/
def utf8Valid : List Nat → Bool
  | [] => true
  | b :: rest =>
    if b < 0x80 then utf8Valid rest
    else if 0xC2 ≤ b && b ≤ 0xDF then
      match rest with
      | b2 :: r => isUtf8Cont b2 && utf8Valid r
      | [] => false
    else if b = 0xE0 then
      match rest with
      | b2 :: b3 :: r => (0xA0 ≤ b2 && b2 ≤ 0xBF) && isUtf8Cont b3 && utf8Valid r
      | _ => false
    else if (0xE1 ≤ b && b ≤ 0xEC) || b = 0xEE || b = 0xEF then
      match rest with
      | b2 :: b3 :: r => isUtf8Cont b2 && isUtf8Cont b3 && utf8Valid r
      | _ => false
    else if b = 0xED then
      match rest with
      | b2 :: b3 :: r => (0x80 ≤ b2 && b2 ≤ 0x9F) && isUtf8Cont b3 && utf8Valid r
      | _ => false
    else if b = 0xF0 then
      match rest with
      | b2 :: b3 :: b4 :: r =>
        (0x90 ≤ b2 && b2 ≤ 0xBF) && isUtf8Cont b3 && isUtf8Cont b4 && utf8Valid r
      | _ => false
    else if 0xF1 ≤ b && b ≤ 0xF3 then
      match rest with
      | b2 :: b3 :: b4 :: r => isUtf8Cont b2 && isUtf8Cont b3 && isUtf8Cont b4 && utf8Valid r
      | _ => false
    else if b = 0xF4 then
      match rest with
      | b2 :: b3 :: b4 :: r =>
        (0x80 ≤ b2 && b2 ≤ 0x8F) && isUtf8Cont b3 && isUtf8Cont b4 && utf8Valid r
      | _ => false
    else false

/-- `split_once(':')` on UTF-8 bytes: split at the first 0x3A byte. -/
def splitOnceColon : List Nat → Option (List Nat × List Nat)
  | [] => none
  | b :: rest =>
    if b = 58 then some ([], rest)
    else (splitOnceColon rest).map (fun q => (b :: q.1, q.2))

/-- The middleware's outcome: the request is forwarded to the inner handler
    (`next.run`), or a response is produced directly. -/
structure MwResponse where
  status : Nat
  wwwAuthenticate : Option String
  body : String
  deriving DecidableEq, Repr

inductive MwOutcome where
  | passThrough
  | respond (r : MwResponse)
  deriving DecidableEq, Repr

/-- The 401 challenge response of lines 516-521. -/
def authFailResponse : MwResponse :=
  { status := 401
    wwwAuthenticate := some "Basic realm=\"MacOCR Server\""
    body := "Authentication failed: A valid username and password are required." }

/-- `basic_auth_middleware_with_params` (lines 489-524). -/
def basic_auth_middleware_with_params (username password : List Nat)
    (authHeader : Option (Option (List Char))) : MwOutcome :=
  match authHeader with
  | some (some auth_str) =>
    if ("Basic ".data).isPrefixOf auth_str then
      let encoded := auth_str.drop 6
      match decodeChunks encoded with
      | some decoded_bytes =>
        if utf8Valid decoded_bytes then
          match splitOnceColon decoded_bytes with
          | some q =>
            if q.1 = username ∧ q.2 = password then MwOutcome.passThrough
            else MwOutcome.respond authFailResponse
          | none => MwOutcome.respond authFailResponse
        else MwOutcome.respond authFailResponse
      | none => MwOutcome.respond authFailResponse
    else MwOutcome.respond authFailResponse
  | _ => MwOutcome.respond authFailResponse

/-! ### Base64 alphabet facts -/

theorem b64Index_b64Char_fin : ∀ n : Fin 64, b64Index (b64Char n.1) = some n.1 := by decide

theorem b64Char_ne_pad_fin : ∀ n : Fin 64, b64Char n.1 ≠ '=' := by decide

theorem b64Index_b64Char {n : Nat} (h : n < 64) : b64Index (b64Char n) = some n :=
  b64Index_b64Char_fin ⟨n, h⟩

theorem b64Char_ne_pad {n : Nat} (h : n < 64) : b64Char n ≠ '=' :=
  b64Char_ne_pad_fin ⟨n, h⟩

theorem b64Index_some {c : Char} {v : Nat} (h : b64Index c = some v) :
    b64Char v = c ∧ v < 64 := by
  unfold b64Index at h
  refine ⟨by simpa using List.find?_some h, ?_⟩
  simpa using List.mem_of_find?_eq_some h

theorem encodeChunks_ne_nil : ∀ {l : List Nat}, l ≠ [] → encodeChunks l ≠ []
  | [], h => absurd rfl h
  | [_], _ => by simp [encodeChunks]
  | [_, _], _ => by simp [encodeChunks]
  | _ :: _ :: _ :: _, _ => by simp [encodeChunks]

/-! ### Base64 round trip: the strict decoder inverts the encoder, and every
decodable string is an encoder output (canonicity). -/

theorem decode_encode : ∀ (l : List Nat), (∀ x ∈ l, x < 256) →
    decodeChunks (encodeChunks l) = some l
  | [] => fun _ => rfl
  | [a] => fun h => by
    have ha : a < 256 := h a (by simp)
    have e1 := b64Index_b64Char (show a / 4 < 64 by omega)
    have e2 := b64Index_b64Char (show a % 4 * 16 < 64 by omega)
    have h3 : a % 4 * 16 % 16 = 0 := by omega
    simp [encodeChunks, decodeChunks, e1, e2, h3]
    omega
  | [a, b] => fun h => by
    have ha : a < 256 := h a (by simp)
    have hb : b < 256 := h b (by simp)
    have e1 := b64Index_b64Char (show a / 4 < 64 by omega)
    have e2 := b64Index_b64Char (show a % 4 * 16 + b / 16 < 64 by omega)
    have e3 := b64Index_b64Char (show b % 16 * 4 < 64 by omega)
    have hne3 : b64Char (b % 16 * 4) ≠ '=' := b64Char_ne_pad (by omega)
    have h4 : b % 16 * 4 % 4 = 0 := by omega
    simp [encodeChunks, decodeChunks, e1, e2, e3, hne3, h4]
    omega
  | a :: b :: c :: rest => fun h => by
    have ha : a < 256 := h a (by simp)
    have hb : b < 256 := h b (by simp)
    have hc : c < 256 := h c (by simp)
    have e1 := b64Index_b64Char (show a / 4 < 64 by omega)
    have e2 := b64Index_b64Char (show a % 4 * 16 + b / 16 < 64 by omega)
    have e3 := b64Index_b64Char (show b % 16 * 4 + c / 64 < 64 by omega)
    have e4 := b64Index_b64Char (show c % 64 < 64 by omega)
    cases rest with
    | nil =>
      have hne3 : b64Char (b % 16 * 4 + c / 64) ≠ '=' := b64Char_ne_pad (by omega)
      have hne4 : b64Char (c % 64) ≠ '=' := b64Char_ne_pad (by omega)
      simp [encodeChunks, decodeChunks, e1, e2, e3, e4, hne3, hne4]
      omega
    | cons r1 rs =>
      have ih := decode_encode (r1 :: rs) (fun x hx => h x (by simp [hx]))
      have hne : encodeChunks (r1 :: rs) ≠ [] := encodeChunks_ne_nil (by simp)
      have hEmp : (encodeChunks (r1 :: rs)).isEmpty = false := by
        cases hE : encodeChunks (r1 :: rs) with
        | nil => exact absurd hE hne
        | cons x xs => rfl
      simp [encodeChunks, decodeChunks, e1, e2, e3, e4, hEmp, ih]
      omega

theorem encode_decode : ∀ (s : List Char) (l : List Nat), decodeChunks s = some l →
    encodeChunks l = s ∧ ∀ x ∈ l, x < 256
  | [], l => fun h => by
    simp only [decodeChunks, Option.some.injEq] at h
    subst h
    exact ⟨rfl, by simp⟩
  | [_], l => fun h => by simp [decodeChunks] at h
  | [_, _], l => fun h => by simp [decodeChunks] at h
  | [_, _, _], l => fun h => by simp [decodeChunks] at h
  | c1 :: c2 :: c3 :: c4 :: rest, l => fun h => by
    simp only [decodeChunks] at h
    rcases hi1 : b64Index c1 with _ | v1 <;> rw [hi1] at h
    · cases h
    rcases hi2 : b64Index c2 with _ | v2 <;> rw [hi2] at h
    · cases h
    obtain ⟨hc1, hv1⟩ := b64Index_some hi1
    obtain ⟨hc2, hv2⟩ := b64Index_some hi2
    cases rest with
    | nil =>
      simp only [List.isEmpty_nil, if_true] at h
      by_cases h3 : c3 = '='
      · rw [if_pos h3] at h
        by_cases h4 : c4 = '='
        · rw [if_pos h4] at h
          by_cases h5 : v2 % 16 = 0
          · rw [if_pos h5, Option.some.injEq] at h
            subst h
            refine ⟨?_, by intro x hx; simp at hx; omega⟩
            have q1 : (v1 * 4 + v2 / 16) / 4 = v1 := by omega
            have q2 : (v1 * 4 + v2 / 16) % 4 * 16 = v2 := by omega
            simp [encodeChunks, q1, q2, hc1, hc2, h3, h4]
          · rw [if_neg h5] at h; cases h
        · rw [if_neg h4] at h; cases h
      · rw [if_neg h3] at h
        by_cases h4 : c4 = '='
        · rw [if_pos h4] at h
          rcases hi3 : b64Index c3 with _ | v3 <;> simp only [hi3] at h
          · cases h
          obtain ⟨hc3, hv3⟩ := b64Index_some hi3
          by_cases h5 : v3 % 4 = 0
          · rw [if_pos h5, Option.some.injEq] at h
            subst h
            refine ⟨?_, by intro x hx; simp at hx; rcases hx with rfl | rfl <;> omega⟩
            have q1 : (v1 * 4 + v2 / 16) / 4 = v1 := by omega
            have q2 : (v1 * 4 + v2 / 16) % 4 * 16 + (v2 % 16 * 16 + v3 / 4) / 16 = v2 := by
              omega
            have q3 : (v2 % 16 * 16 + v3 / 4) % 16 * 4 = v3 := by omega
            simp [encodeChunks, q1, q2, q3, hc1, hc2, hc3, h4]
          · rw [if_neg h5] at h; cases h
        · rw [if_neg h4] at h
          rcases hi3 : b64Index c3 with _ | v3 <;> rw [hi3] at h
          · cases h
          rcases hi4 : b64Index c4 with _ | v4 <;> rw [hi4] at h
          · cases h
          obtain ⟨hc3, hv3⟩ := b64Index_some hi3
          obtain ⟨hc4, hv4⟩ := b64Index_some hi4
          rw [Option.some.injEq] at h
          subst h
          refine ⟨?_, by intro x hx; simp at hx; rcases hx with rfl | rfl | rfl <;> omega⟩
          have q1 : (v1 * 4 + v2 / 16) / 4 = v1 := by omega
          have q2 : (v1 * 4 + v2 / 16) % 4 * 16 + (v2 % 16 * 16 + v3 / 4) / 16 = v2 := by
            omega
          have q3 : (v2 % 16 * 16 + v3 / 4) % 16 * 4 + (v3 % 4 * 64 + v4) / 64 = v3 := by
            omega
          have q4 : (v3 % 4 * 64 + v4) % 64 = v4 := by omega
          simp [encodeChunks, q1, q2, q3, q4, hc1, hc2, hc3, hc4]
    | cons r1 rs =>
      simp only [List.isEmpty_cons, Bool.false_eq_true, if_false] at h
      rcases hi3 : b64Index c3 with _ | v3 <;> rw [hi3] at h
      · cases h
      rcases hi4 : b64Index c4 with _ | v4 <;> rw [hi4] at h
      · cases h
      obtain ⟨hc3, hv3⟩ := b64Index_some hi3
      obtain ⟨hc4, hv4⟩ := b64Index_some hi4
      rcases hrec : decodeChunks (r1 :: rs) with _ | bs <;> rw [hrec] at h
      · cases h
      obtain ⟨ihEnc, ihBound⟩ := encode_decode (r1 :: rs) bs hrec
      rw [Option.some.injEq] at h
      subst h
      constructor
      · have q1 : (v1 * 4 + v2 / 16) / 4 = v1 := by omega
        have q2 : (v1 * 4 + v2 / 16) % 4 * 16 + (v2 % 16 * 16 + v3 / 4) / 16 = v2 := by
          omega
        have q3 : (v2 % 16 * 16 + v3 / 4) % 16 * 4 + (v3 % 4 * 64 + v4) / 64 = v3 := by
          omega
        have q4 : (v3 % 4 * 64 + v4) % 64 = v4 := by omega
        simp [encodeChunks, q1, q2, q3, q4, hc1, hc2, hc3, hc4, ihEnc]
      · intro x hx
        simp only [List.mem_cons] at hx
        rcases hx with rfl | rfl | rfl | hx
        · omega
        · omega
        · omega
        · exact ihBound x hx

/-! ### split_once lemmas -/

theorem splitOnceColon_eq : ∀ {l u p : List Nat},
    splitOnceColon l = some (u, p) → l = u ++ 58 :: p := by
  intro l
  induction l with
  | nil => intro u p h; simp [splitOnceColon] at h
  | cons b rest ih =>
    intro u p h
    simp only [splitOnceColon] at h
    by_cases hb : b = 58
    · rw [if_pos hb] at h
      rw [Option.some.injEq, Prod.mk.injEq] at h
      obtain ⟨h1, h2⟩ := h
      subst h1; subst h2
      simp [hb]
    · rw [if_neg hb] at h
      rcases hr : splitOnceColon rest with _ | q
      · rw [hr] at h; simp at h
      · rw [hr] at h
        simp only [Option.map_some', Option.some.injEq, Prod.mk.injEq] at h
        obtain ⟨h1, h2⟩ := h
        subst h1; subst h2
        simp [ih hr]

theorem splitOnceColon_append : ∀ (u p : List Nat), 58 ∉ u →
    splitOnceColon (u ++ 58 :: p) = some (u, p) := by
  intro u p h
  induction u with
  | nil => simp [splitOnceColon]
  | cons b rest ih =>
    have hb : ¬b = 58 := fun e => h (by simp [e])
    have hrest : 58 ∉ rest := fun m => h (by simp [m])
    simp [splitOnceColon, hb, ih hrest]

/-- C8: with configured credentials (colon-free valid-UTF-8 username, the
    pair forming a UTF-8 string), a request passes through the auth gate
    exactly when its Authorization header is `Basic ` followed by the
    canonical base64 encoding of `username:password`; every other request
    receives the single 401 challenge response carrying a
    `WWW-Authenticate: Basic` header, with no distinction revealing which
    half failed. -/
theorem C8_auth_gate (username password : List Nat)
    (hu : ∀ x ∈ username, x < 256) (hp : ∀ x ∈ password, x < 256)
    (hcolon : 58 ∉ username)
    (hutf : utf8Valid (username ++ 58 :: password) = true) :
    (authFailResponse.status = 401
      ∧ authFailResponse.wwwAuthenticate = some "Basic realm=\"MacOCR Server\"")
    ∧ ∀ h : Option (Option (List Char)),
      (basic_auth_middleware_with_params username password h = .passThrough
        ↔ h = some (some ("Basic ".data ++ encodeChunks (username ++ 58 :: password))))
      ∧ (basic_auth_middleware_with_params username password h = .passThrough
         ∨ basic_auth_middleware_with_params username password h
             = .respond authFailResponse) := by
  have hbytes : ∀ x ∈ username ++ 58 :: password, x < 256 := by
    intro x hx
    rcases List.mem_append.mp hx with hx | hx
    · exact hu x hx
    · rcases List.mem_cons.mp hx with rfl | hx
      · omega
      · exact hp x hx
  refine ⟨⟨rfl, rfl⟩, fun h => ⟨⟨?_, ?_⟩, ?_⟩⟩
  · -- pass-through forces the canonical header
    intro hpass
    rcases h with _ | hv
    · simp [basic_auth_middleware_with_params] at hpass
    rcases hv with _ | cs
    · simp [basic_auth_middleware_with_params] at hpass
    simp only [basic_auth_middleware_with_params] at hpass
    by_cases hpre : ("Basic ".data).isPrefixOf cs
    swap
    · rw [if_neg hpre] at hpass; cases hpass
    rw [if_pos hpre] at hpass
    rcases hdec : decodeChunks (cs.drop 6) with _ | bytes <;>
      simp only [hdec] at hpass
    · cases hpass
    by_cases hval : utf8Valid bytes = true
    swap
    · rw [if_neg hval] at hpass; cases hpass
    rw [if_pos hval] at hpass
    rcases hsp : splitOnceColon bytes with _ | q <;> simp only [hsp] at hpass
    · cases hpass
    by_cases hq : q.1 = username ∧ q.2 = password
    swap
    · rw [if_neg hq] at hpass; cases hpass
    have hbytes_eq : bytes = username ++ 58 :: password := by
      have hsplit := splitOnceColon_eq hsp
      rwa [hq.1, hq.2] at hsplit
    have henc : encodeChunks bytes = cs.drop 6 := (encode_decode _ _ hdec).1
    obtain ⟨t, ht⟩ := List.isPrefixOf_iff_prefix.mp hpre
    subst ht
    have hdrop : ("Basic ".data ++ t).drop 6 = t := by
      have h6 : ("Basic ".data).length = 6 := rfl
      conv_lhs => rw [← h6]
      exact List.drop_left _ _
    have henc2 : encodeChunks (username ++ 58 :: password) = t := by
      rw [← hbytes_eq, henc, hdrop]
    rw [henc2]
  · -- the canonical header passes through
    intro hh
    subst hh
    have hpre : ("Basic ".data).isPrefixOf
        ("Basic ".data ++ encodeChunks (username ++ 58 :: password)) = true :=
      List.isPrefixOf_iff_prefix.mpr ⟨_, rfl⟩
    have hdrop : ("Basic ".data ++ encodeChunks (username ++ 58 :: password)).drop 6
        = encodeChunks (username ++ 58 :: password) := by
      have h6 : ("Basic ".data).length = 6 := rfl
      conv_lhs => rw [← h6]
      exact List.drop_left _ _
    simp only [basic_auth_middleware_with_params, hpre, if_true, hdrop,
      decode_encode _ hbytes, hutf,
      splitOnceColon_append username password hcolon]
    simp
  · -- dichotomy: every outcome is pass-through or the 401 challenge
    rcases h with _ | (_ | cs)
    · simp [basic_auth_middleware_with_params]
    · simp [basic_auth_middleware_with_params]
    · simp only [basic_auth_middleware_with_params]
      by_cases hpre : ("Basic ".data).isPrefixOf cs
      case neg => rw [if_neg hpre]; right; rfl
      rw [if_pos hpre]
      rcases hd : decodeChunks (cs.drop 6) with _ | bytes <;> simp only [hd]
      · trivial
      by_cases hv2 : utf8Valid bytes = true
      case neg => rw [if_neg hv2]; right; rfl
      rw [if_pos hv2]
      rcases hs : splitOnceColon bytes with _ | q <;> simp only [hs]
      · trivial
      by_cases hq : q.1 = username ∧ q.2 = password
      · rw [if_pos hq]; left; rfl
      · rw [if_neg hq]; right; rfl

/-- UTF-8 bytes of the username `alice`. -/
def aliceBytes : List Nat := [97, 108, 105, 99, 101]

/-- UTF-8 bytes of the password `secret`. -/
def secretBytes : List Nat := [115, 101, 99, 114, 101, 116]

/-- Witness for C8: with credentials alice/secret the canonical
    `Basic base64(alice:secret)` header passes through. -/
theorem C8_auth_gate_witness :
    basic_auth_middleware_with_params aliceBytes secretBytes
      (some (some ("Basic ".data ++ encodeChunks (aliceBytes ++ 58 :: secretBytes))))
      = .passThrough :=
  ((C8_auth_gate aliceBytes secretBytes (by decide) (by decide) (by decide) (by decide)).2
    (some (some ("Basic ".data ++ encodeChunks (aliceBytes ++ 58 :: secretBytes))))).1.mpr
    rfl

end Macocr
